import Mathlib

/-!
Verification of the geometria Rhino (3dm) deserializer core.

The Rust sources are shallowly embedded: byte streams become `List Nat`
(each entry a byte value), the `Reader`/`Deserializer` state becomes an
explicit `RState` record, machine integers become `Nat`/`Int` with
explicit `% 2 ^ w` where overflow matters, and fallible decoders return
`Except String`.
-/

namespace Geometria

/-- Archive file version, from `serializer/rhino/version.rs` (`enum Version`). -/
inductive FileVersion where
  | V1 | V2 | V3 | V4 | V50 | V60 | V70
deriving DecidableEq, Repr

/-- Embeds `impl TryFrom<u8> for Version` in `serializer/rhino/version.rs`. -/
def versionTryFromU8 (n : Nat) : Option FileVersion :=
  if n = 1 then some .V1
  else if n = 2 then some .V2
  else if n = 3 then some .V3
  else if n = 4 then some .V4
  else if n = 50 then some .V50
  else if n = 60 then some .V60
  else if n = 70 then some .V70
  else none

/-- Embeds `impl Into<u8> for Version` in `serializer/rhino/version.rs`. -/
def versionToU8 : FileVersion → Nat
  | .V1 => 1 | .V2 => 2 | .V3 => 3 | .V4 => 4
  | .V50 => 50 | .V60 => 60 | .V70 => 70

/-- Modelled from the spec: the typecode constants module
(`serializer/rhino/typecode.rs`) is not present in the sources; the spec
describes typecodes as opaque 32-bit constants and `SHORT` as a bit flag.
The concrete numbers below are placeholders; every theorem in this file
either quantifies over the typecode field value or depends only on these
constants being pairwise distinct. -/
def SHORT : Nat := 0x80000000

def RGB : Nat := 1
def RGBDISPLAY : Nat := 2
def PROPERTIES_OPENNURBS_VERSION : Nat := 3
def OBJECT_RECORD_TYPE : Nat := 4
def COMMENTBLOCK : Nat := 5
def SUMMARY : Nat := 6
def NOTES : Nat := 7
def BITMAPPREVIEW : Nat := 8
def CURRENTLAYER : Nat := 9
def LAYER : Nat := 10
def ENDOFTABLE : Nat := 11
def PROPERTIES_TABLE : Nat := 12
def PROPERTIES_AS_FILE_NAME : Nat := 13
def PROPERTIES_REVISIONHISTORY : Nat := 14
def PROPERTIES_NOTES : Nat := 15
def PROPERTIES_APPLICATION : Nat := 16
def PROPERTIES_PREVIEWIMAGE : Nat := 17
def PROPERTIES_COMPRESSED_PREVIEWIMAGE : Nat := 18

/-- Chunk header, `struct Begin` in `serializer/rhino/chunk.rs`. -/
structure ChunkBegin where
  typecode : Nat
  value : Int
  initialPosition : Nat
deriving DecidableEq, Repr

def beginDefault : ChunkBegin := { typecode := 0, value := 0, initialPosition := 0 }

/-- The deserializer state: `struct Reader` in `serializer/rhino/reader.rs`
over an in-memory byte source (`Cursor<Vec<u8>>`). -/
structure RState where
  pos : Nat
  data : List Nat
  version : FileVersion
  chunkBegin : ChunkBegin
deriving DecidableEq, Repr

/-- Little-endian byte-list decoding (`from_le_bytes`). -/
def leNat : List Nat → Nat
  | [] => 0
  | b :: bs => b % 256 + 256 * leNat bs

/-- Two's-complement reading of an unsigned 32-bit value (`i32` cast). -/
def toI32 (n : Nat) : Int :=
  if n < 2 ^ 31 then (n : Int) else (n : Int) - 2 ^ 32

/-- Two's-complement reading of an unsigned 64-bit value (`i64` cast). -/
def toI64 (n : Nat) : Int :=
  if n < 2 ^ 63 then (n : Int) else (n : Int) - 2 ^ 64

/-- Embeds `i64 as u64` cast: the unsigned 64-bit value with the same bit pattern. -/
def castU64 (v : Int) : Nat := (v % (2 ^ 64 : Int)).toNat

/-- Embeds `read_exact` over the in-memory source: succeeds iff `n` bytes remain. -/
def readExact (n : Nat) (st : RState) : Except String (List Nat × RState) :=
  if st.pos + n ≤ st.data.length then
    .ok ((st.data.drop st.pos).take n, { st with pos := st.pos + n })
  else
    .error "failed to fill whole buffer"

/-- Embeds `Reader::deserialize_u8` / `impl Deserialize for u8`. -/
def deserializeU8 (st : RState) : Except String (Nat × RState) := do
  let (bs, st1) ← readExact 1 st
  .ok (leNat bs, st1)

/-- Embeds `Reader::deserialize_u32` / `impl Deserialize for u32` (little endian). -/
def deserializeU32 (st : RState) : Except String (Nat × RState) := do
  let (bs, st1) ← readExact 4 st
  .ok (leNat bs, st1)

/-- Embeds `Reader::deserialize_i32` / `impl Deserialize for i32` (little endian). -/
def deserializeI32 (st : RState) : Except String (Int × RState) := do
  let (bs, st1) ← readExact 4 st
  .ok (toI32 (leNat bs), st1)

/-- Embeds `Reader::deserialize_i64` / `impl Deserialize for i64` (little endian). -/
def deserializeI64 (st : RState) : Except String (Int × RState) := do
  let (bs, st1) ← readExact 8 st
  .ok (toI64 (leNat bs), st1)

/-! ## Chunk version nibbles (C5) -/

/-- Embeds `chunk::Version::major` in `serializer/rhino/chunk.rs`: `inner >> 4`. -/
def chunkVersionMajor (b : Nat) : Nat := b / 2 ^ 4

/-- Embeds `chunk::Version::minor` in `serializer/rhino/chunk.rs`: `inner & 0x0F`. -/
def chunkVersionMinor (b : Nat) : Nat := b % 2 ^ 4

/-- The `ChunkVersion` record of `serializer/rhino/mod.rs`. -/
structure ModChunkVersion where
  minor : Nat
  major : Nat
deriving DecidableEq, Repr

/-- Embeds `impl Deserialize for ChunkVersion` in `serializer/rhino/mod.rs`
(lines 134-145): reads one byte `raw_version` and builds
`minor = raw_version | 0x0F`, `major = raw_version >> 4`. -/
def modChunkVersionDeserialize (st : RState) :
    Except String (ModChunkVersion × RState) := do
  let (raw, st1) ← deserializeU8 st
  .ok ({ minor := raw ||| 0x0F, major := raw / 2 ^ 4 }, st1)

/-! ## Gregorian dates (C7) -/

/-- Embeds `GregorianDate::is_leap_year` in `serializer/rhino/date.rs`:
`(1624 <= year) && (0 == year % 4) && (0 == year % 400 || 0 != year % 100)`. -/
def isLeapYear (year : Nat) : Bool :=
  decide (1624 ≤ year) && (year % 4 == 0) && (year % 400 == 0 || year % 100 != 0)

/-! ## Chunk header decoding (C1) -/

/-- Embeds `Begin::size_of_length` in `serializer/rhino/chunk.rs`. -/
def sizeOfLength : FileVersion → Nat
  | .V1 | .V2 | .V3 | .V4 => 4
  | _ => 8

/-- Embeds `Begin::is_unsigned` in `serializer/rhino/chunk.rs`, on the typecode
field of the header being decoded. -/
def isUnsigned (typecode : Nat) : Bool :=
  (SHORT &&& typecode == 0) || (RGB == typecode) || (RGBDISPLAY == typecode)
    || (PROPERTIES_OPENNURBS_VERSION == typecode)
    || (OBJECT_RECORD_TYPE == typecode)

/-- Embeds `impl Deserialize for Begin` in `serializer/rhino/chunk.rs` (lines
39-58): u32 typecode, then an 8-byte `i64` value when the archive version
asks for an 8-byte length, else a 4-byte value read as `u32` or `i32`
according to `is_unsigned`; records the stream position after the header
and stores the header in the deserializer context. -/
def beginDeserialize (st : RState) : Except String (ChunkBegin × RState) := do
  let (tcv, st1) ← deserializeU32 st
  let (value, st2) ←
    if sizeOfLength st1.version == 8 then
      deserializeI64 st1
    else if isUnsigned tcv then do
      let (v, s) ← deserializeU32 st1
      .ok ((v : Int), s)
    else
      deserializeI32 st1
  let b : ChunkBegin := { typecode := tcv, value := value, initialPosition := st2.pos }
  .ok (b, { st2 with chunkBegin := b })

/-! ## Chunk value and chunk strings (C9) -/

/-- Embeds `impl Deserialize for Value` in `serializer/rhino/chunk.rs` (lines
87-102): like the value field of `Begin`, but the signedness hint comes
from the typecode of the context's current chunk header. -/
def valueDeserialize (st : RState) : Except String (Int × RState) :=
  if sizeOfLength st.version == 8 then
    deserializeI64 st
  else if isUnsigned st.chunkBegin.typecode then do
    let (v, s) ← deserializeU32 st
    .ok ((v : Int), s)
  else
    deserializeI32 st

/-- Embeds `take(n).read_to_string` over the in-memory source: reads
`min n (bytes remaining)` bytes and returns them together with the count.
Strings are modelled as their byte lists. -/
def takeReadToString (n : Nat) (st : RState) : Nat × List Nat × RState :=
  let size := min n (st.data.length - st.pos)
  (size, (st.data.drop st.pos).take size, { st with pos := st.pos + size })

/-- Embeds `impl Deserialize for StringWithChunkValue` in
`serializer/rhino/string.rs` (lines 61-82): read a chunk `Value`; when it
is positive, read that many bytes and require the read size to equal the
value; otherwise fail with "Negative length". -/
def stringWithChunkValueDeserialize (st : RState) :
    Except String (List Nat × RState) := do
  let (chunkValue, st1) ← valueDeserialize st
  if 0 < chunkValue then
    let (size, s, st2) := takeReadToString chunkValue.toNat st1
    if (size : Int) = chunkValue then .ok (s, st2)
    else .error "Invalid length"
  else
    .error "Negative length"

/-- Embeds `impl Deserialize for Comment` in `serializer/rhino/comment.rs`: read a
u32 typecode, require `COMMENTBLOCK`, then decode a `StringWithChunkValue`. -/
def commentDeserialize (st : RState) : Except String (List Nat × RState) := do
  let (tcv, st1) ← deserializeU32 st
  if tcv = COMMENTBLOCK then
    stringWithChunkValueDeserialize st1
  else
    .error "Invalid typecode"

/-! ## Sub-stream (`Chunk`) seek and read (C2, C8) -/

/-- The sub-stream view of `struct Chunk` in `serializer/rhino/chunk.rs`:
`offset` and `length` over a parent stream (`Chunk::new` rejects
`length = 0`). -/
structure SubChunk where
  offset : Nat
  length : Nat
deriving DecidableEq, Repr

/-- Embeds `std::io::SeekFrom`. -/
inductive SeekMode where
  | fromStart (v : Nat)
  | fromEnd (v : Int)
  | fromCurrent (v : Int)
deriving DecidableEq, Repr

/-- Errors of `enum ChunkError` in `serializer/rhino/chunk.rs`. -/
inductive ChunkError where
  | emptyChunk
  | outOfBounds
  | invalidInput
deriving DecidableEq, Repr

/-- Embeds `u64::checked_add`. -/
def checkedAdd (a b : Nat) : Option Nat :=
  if a + b < 2 ^ 64 then some (a + b) else none

/-- Embeds `u64::checked_sub`. -/
def checkedSub (a b : Nat) : Option Nat :=
  if b ≤ a then some (a - b) else none

/-- Embeds `Chunk::start_position`. -/
def startPosition (c : SubChunk) : Nat := c.offset

/-- Embeds `Chunk::end_position`: `offset + (length - 1)`. -/
def endPosition (c : SubChunk) : Nat := c.offset + (c.length - 1)

/-- Embeds `impl Seek for Chunk` in `serializer/rhino/chunk.rs` (lines 231-269).
The parent is an in-memory cursor at `parentPos`; the result pairs the
outcome (relative position on success) with the parent position after the
call.  The error branches of the source perform no seek on the parent, so
they leave `parentPos` unchanged. -/
def seekFinalPosition (c : SubChunk) (parentPos : Nat) (mode : SeekMode) :
    Option Nat :=
  match mode with
  | .fromStart v => checkedAdd (startPosition c) v
  | .fromEnd v =>
    if 0 ≤ v then checkedAdd (endPosition c) v.toNat
    else checkedSub (endPosition c) (-v).toNat
  | .fromCurrent v =>
    if 0 ≤ v then checkedAdd parentPos v.toNat
    else checkedSub parentPos (-v).toNat

def chunkSeek (c : SubChunk) (parentPos : Nat) (mode : SeekMode) :
    Except ChunkError Nat × Nat :=
  match seekFinalPosition c parentPos mode with
  | some value =>
    if startPosition c ≤ value then (.ok (value - startPosition c), value)
    else (.error .outOfBounds, parentPos)
  | none => (.error .invalidInput, parentPos)

/-- Embeds `Chunk::remainder_length`: the chunk-relative stream position (via a
`SeekFrom::Current(0)` seek), then `length - position` when the position is
before `end_position`, else `0`. -/
def remainderLength (c : SubChunk) (parentPos : Nat) : Except ChunkError Nat :=
  match (chunkSeek c parentPos (.fromCurrent 0)).1 with
  | .error e => .error e
  | .ok current =>
    .ok (if current < endPosition c then c.length - current else 0)

/-- Embeds `impl Read for Chunk` (lines 221-229) over an in-memory parent of
`dataLen` bytes: read `min (remainder_length) (buffer length)` bytes from
the parent; the parent cursor clamps at the end of its data.  Returns the
byte count read and the parent position after the call. -/
def chunkRead (c : SubChunk) (dataLen parentPos bufLen : Nat) :
    Except ChunkError (Nat × Nat) :=
  match remainderLength c parentPos with
  | .error e => .error e
  | .ok rem =>
    let n := min rem bufLen
    let r := min n (dataLen - parentPos)
    .ok (r, parentPos + r)

/-! ## File version parsing (C6) -/

/-- Embeds `char::to_digit(10)` on a byte. -/
def digitVal (b : Nat) : Option Nat :=
  if 48 ≤ b ∧ b ≤ 57 then some (b - 48) else none

/-- One step of the `try_fold` of `impl Deserialize for Version` in
`serializer/rhino/mod.rs`: `acc * 10u8 + digit` in wrapping `u8`
arithmetic, failing on a non-digit. -/
def digitStep (acc : Option Nat) (x : Nat) : Option Nat :=
  match acc, digitVal x with
  | some a, some d => some ((a * 10 + d) % 256)
  | _, _ => none

/-- The full `try_fold` over the version bytes. -/
def parseDigits (bs : List Nat) : Option Nat :=
  bs.foldl digitStep (some 0)

/-- Embeds `impl Deserialize for Version` in `serializer/rhino/mod.rs` (lines
103-132): read 8 bytes, skip leading spaces, fold the rest as decimal
digits into a byte, map through `Version::try_from` and update the context
version on success. -/
def versionFromByte (v : Nat) (st1 : RState) :
    Except String (FileVersion × RState) :=
  match versionTryFromU8 v with
  | some version => .ok (version, { st1 with version := version })
  | none => .error "invalid version"

def fileVersionDeserialize (st : RState) : Except String (FileVersion × RState) :=
  match readExact 8 st with
  | .error _ => .error "3dm file error: unable to read file version"
  | .ok (buf, st1) =>
    match parseDigits (buf.dropWhile (fun x => x == 32)) with
    | none => .error "3dm file error: unable to read file version"
    | some v => versionFromByte v st1

/-! ## Shared record decoders -/

/-- Embeds `struct Time` decoded as eight little-endian `u32` fields
(`serializer/rhino/time.rs` and `impl Deserialize for Time` in
`serializer/rhino/mod.rs`). -/
structure TimeRec where
  second : Nat
  minute : Nat
  hour : Nat
  monthDay : Nat
  month : Nat
  year : Nat
  weekDay : Nat
  yearDay : Nat
deriving DecidableEq, Repr

def timeDefault : TimeRec :=
  { second := 0, minute := 0, hour := 0, monthDay := 0, month := 0, year := 0,
    weekDay := 0, yearDay := 0 }

def timeDeserialize (st : RState) : Except String (TimeRec × RState) := do
  let (second, st1) ← deserializeU32 st
  let (minute, st2) ← deserializeU32 st1
  let (hour, st3) ← deserializeU32 st2
  let (monthDay, st4) ← deserializeU32 st3
  let (month, st5) ← deserializeU32 st4
  let (year, st6) ← deserializeU32 st5
  let (weekDay, st7) ← deserializeU32 st6
  let (yearDay, st8) ← deserializeU32 st7
  .ok ({ second, minute, hour, monthDay, month, year, weekDay, yearDay }, st8)

/-- The local `StringWithLength` of `serializer/rhino/mod.rs` (lines
285-298): `u32` length, then `take(length).read_to_string` with no size
check. -/
def modStringWithLengthDeserialize (st : RState) :
    Except String (List Nat × RState) := do
  let (len, st1) ← deserializeU32 st
  let (_, s, st2) := takeReadToString len st1
  .ok (s, st2)

/-- Embeds `StringWithLength` of `serializer/rhino/string.rs` (with the size
check: the bytes read must equal the declared length). -/
def stringWithLengthDeserialize (st : RState) :
    Except String (List Nat × RState) := do
  let (len, st1) ← deserializeU32 st
  let (size, s, st2) := takeReadToString len st1
  if size = len then .ok (s, st2) else .error "Invalid length"

/-- Embeds `BoolFromI32` in `serializer/src/rhino/bool.rs`: an `i32`, true iff
nonzero. -/
def boolFromI32Deserialize (st : RState) : Except String (Bool × RState) := do
  let (v, st1) ← deserializeI32 st
  .ok (decide (v ≠ 0), st1)

/-- Embeds `chunk::Version` (the *big* chunk version) decoded from one byte:
major and minor nibbles (`serializer/rhino/chunk.rs`, lines 104-129). -/
def bigVersionDeserialize (st : RState) : Except String (Nat × Nat × RState) := do
  let (b, st1) ← deserializeU8 st
  .ok (chunkVersionMajor b, chunkVersionMinor b, st1)

/-- Modelled from the spec: `WStringWithLength` (its source file is not
under src/): a `u32` count of 16-bit code units including a trailing NUL;
read `count - 1` little-endian `u16` units, then consume one more (the
NUL).  The string is modelled as its code-unit list. -/
def readUnits : Nat → RState → Except String (List Nat × RState)
  | 0, st => .ok ([], st)
  | n + 1, st => do
    let (bs, st1) ← readExact 2 st
    let (rest, st2) ← readUnits n st1
    .ok (leNat bs :: rest, st2)

def wstringDeserialize (st : RState) : Except String (List Nat × RState) := do
  let (count, st1) ← deserializeU32 st
  let (units, st2) ← readUnits (count - 1) st1
  let (_, st3) ← readExact 2 st2
  .ok (units, st3)

/-! ## Old-crate Properties (V1 loop) — C10 -/

/-- Embeds `RevisionHistory` of `serializer/rhino/mod.rs`. -/
structure RevisionHistoryRec where
  createdBy : List Nat
  lastEditedBy : List Nat
  createTime : TimeRec
  lastEditTime : TimeRec
  revisionCount : Int
deriving DecidableEq, Repr

def revisionHistoryDefault : RevisionHistoryRec :=
  { createdBy := [], lastEditedBy := [], createTime := timeDefault,
    lastEditTime := timeDefault, revisionCount := 0 }

/-- Embeds `impl Deserialize for RevisionHistory` in `serializer/rhino/mod.rs`
(lines 318-346).  The V2 branch reads the (buggy) `ChunkVersion` and only
decodes fields when `major == 1`; the wide strings are `// TODO` in the
source and stay at their defaults. -/
def modRevisionHistoryDeserialize (st : RState) :
    Except String (RevisionHistoryRec × RState) :=
  if st.version = .V1 then do
    let (createdBy, st1) ← modStringWithLengthDeserialize st
    let (createTime, st2) ← timeDeserialize st1
    let (_, st3) ← deserializeI32 st2
    let (lastEditedBy, st4) ← modStringWithLengthDeserialize st3
    let (lastEditTime, st5) ← timeDeserialize st4
    let (_, st6) ← deserializeI32 st5
    let (revisionCount, st7) ← deserializeI32 st6
    .ok ({ createdBy, lastEditedBy, createTime, lastEditTime, revisionCount }, st7)
  else do
    let (cv, st1) ← modChunkVersionDeserialize st
    if cv.major = 1 then do
      let (createTime, st2) ← timeDeserialize st1
      let (lastEditTime, st3) ← timeDeserialize st2
      let (revisionCount, st4) ← deserializeI32 st3
      .ok ({ revisionHistoryDefault with
              createTime, lastEditTime, revisionCount }, st4)
    else
      .ok (revisionHistoryDefault, st1)

/-- Embeds `Notes` of `serializer/rhino/mod.rs`. -/
structure NotesRec where
  data : List Nat
  visible : Bool
  htmlEncoded : Bool
  windowLeft : Int
  windowTop : Int
  windowRight : Int
  windowBottom : Int
deriving DecidableEq, Repr

def notesDefault : NotesRec :=
  { data := [], visible := false, htmlEncoded := false, windowLeft := 0,
    windowTop := 0, windowRight := 0, windowBottom := 0 }

/-- Embeds `impl Deserialize for Notes` in `serializer/rhino/mod.rs` (lines
348-376); the V2 wide string is `// TODO` in the source. -/
def modNotesDeserialize (st : RState) : Except String (NotesRec × RState) :=
  if st.version = .V1 then do
    let (visible, st1) ← deserializeI32 st
    let (windowLeft, st2) ← deserializeI32 st1
    let (windowTop, st3) ← deserializeI32 st2
    let (windowRight, st4) ← deserializeI32 st3
    let (windowBottom, st5) ← deserializeI32 st4
    let (s, st6) ← modStringWithLengthDeserialize st5
    .ok ({ notesDefault with
            visible := decide (visible ≠ 0), windowLeft, windowTop,
            windowRight, windowBottom, data := s }, st6)
  else do
    let (cv, st1) ← modChunkVersionDeserialize st
    if cv.major = 1 then do
      let (htmlEncoded, st2) ← deserializeI32 st1
      let (visible, st3) ← deserializeI32 st2
      let (windowLeft, st4) ← deserializeI32 st3
      let (windowTop, st5) ← deserializeI32 st4
      let (windowRight, st6) ← deserializeI32 st5
      let (windowBottom, st7) ← deserializeI32 st6
      .ok ({ notesDefault with
              htmlEncoded := decide (htmlEncoded ≠ 0),
              visible := decide (visible ≠ 0), windowLeft, windowTop,
              windowRight, windowBottom }, st7)
    else
      .ok (notesDefault, st1)

/-- Embeds `Properties` of `serializer/rhino/mod.rs`; the `version` field
(`on_version::Version`) is never assigned by the V1 loop and is omitted. -/
structure PropertiesRec where
  revisionHistory : RevisionHistoryRec
  notes : NotesRec
deriving DecidableEq, Repr

def propertiesDefault : PropertiesRec :=
  { revisionHistory := revisionHistoryDefault, notes := notesDefault }

/-- The `COMMENTBLOCK` arm of the V1 properties loop:
`String::deserialize(deserializer, chunk_begin)` reads
`take(chunk_begin.value as u64)` bytes to a string. -/
def chunkPayloadString (b : ChunkBegin) (st : RState) : List Nat × RState :=
  let (_, s, st2) := takeReadToString (castU64 b.value) st
  (s, st2)

/-- The V1 loop of `impl Deserialize for Properties` in
`serializer/rhino/mod.rs` (lines 383-413): decode a chunk header, dispatch
on its typecode (BITMAPPREVIEW, CURRENTLAYER and LAYER break out of the
loop), then seek to `initial_position + value` and continue.  The loop of
the source has no fuel; the fuel argument only bounds the recursion. -/
def propertiesV1Loop : Nat → PropertiesRec → RState →
    Except String (PropertiesRec × RState)
  | 0, _, _ => .error "out of fuel"
  | fuel + 1, props, st =>
    match beginDeserialize st with
    | .error e => .error e
    | .ok (b, st1) =>
      if b.typecode = COMMENTBLOCK then
        let (_, st2) := chunkPayloadString b st1
        propertiesV1Loop fuel props
          { st2 with pos := b.initialPosition + castU64 b.value }
      else if b.typecode = SUMMARY then
        match modRevisionHistoryDeserialize st1 with
        | .error e => .error e
        | .ok (rh, st2) =>
          propertiesV1Loop fuel { props with revisionHistory := rh }
            { st2 with pos := b.initialPosition + castU64 b.value }
      else if b.typecode = NOTES then
        match modNotesDeserialize st1 with
        | .error e => .error e
        | .ok (n, st2) =>
          propertiesV1Loop fuel { props with notes := n }
            { st2 with pos := b.initialPosition + castU64 b.value }
      else if b.typecode = BITMAPPREVIEW then
        .ok (props, st1)
      else if b.typecode = CURRENTLAYER ∨ b.typecode = LAYER then
        .ok (props, st1)
      else
        propertiesV1Loop fuel props
          { st1 with pos := b.initialPosition + castU64 b.value }

/-- Embeds `impl Deserialize for Properties` in `serializer/rhino/mod.rs` (lines
378-417): for a V1 archive, seek to absolute offset 32 and run the
property-chunk loop; otherwise the V1 body is skipped and the default is
returned. -/
def modPropertiesDeserialize (st : RState) :
    Except String (PropertiesRec × RState) :=
  if st.version = .V1 then
    propertiesV1Loop (st.data.length + 1) propertiesDefault { st with pos := 32 }
  else
    .ok (propertiesDefault, st)

/-! ## New-crate Properties (hand-written V1/V2 loops and the derive
table template) — C3, C4 -/

/-- Modelled from the spec: `Chunk::deserialize` for the newer crate
layout (its `chunk.rs` is not under src/): decode a `Begin` header, then
yield the length-bounded sub-stream over the payload
(`[header_end, header_end + value)`); a zero length is rejected
(`Chunk::new` in the old-layout `chunk.rs` does the same).  The sub-stream
is represented by its payload byte list, clamped at the end of the parent
data. -/
def chunkDeserialize (st : RState) :
    Except String (ChunkBegin × List Nat × RState) := do
  let (b, st1) ← beginDeserialize st
  if castU64 b.value = 0 then
    .error "chunk with null length is not allowed"
  else
    .ok (b, (st1.data.drop st1.pos).take (castU64 b.value), st1)

/-- A fresh deserializer state over a sub-chunk payload: position 0,
inherited archive version, the sub-chunk's own header as context. -/
def mkSub (payload : List Nat) (version : FileVersion) (b : ChunkBegin) :
    RState :=
  { pos := 0, data := payload, version := version, chunkBegin := b }

/-- Advancing the enclosing stream past a sub-chunk:
`chunk.seek(SeekFrom::End(1))`. -/
def pastChunk (st1 : RState) (b : ChunkBegin) : RState :=
  { st1 with pos := st1.pos + castU64 b.value }

/-- Embeds `RevisionHistoryV1` / `RevisionHistoryV2` of
`serializer/src/rhino/revision_history.rs` (derive-generated decoders). -/
inductive RevisionHistoryNew where
  | v1 (createdBy : List Nat) (createTime : TimeRec) (lastEditedBy : List Nat)
      (lastEditTime : TimeRec) (revisionCount : Int)
  | v2 (createdBy : List Nat) (createTime : TimeRec) (lastEditedBy : List Nat)
      (lastEditTime : TimeRec) (revisionCount : Int)
deriving DecidableEq, Repr

def revisionHistoryNewDefault : RevisionHistoryNew :=
  .v1 [] timeDefault [] timeDefault 0

/-- Embeds `RevisionHistory::deserialize` of
`serializer/src/rhino/revision_history.rs`: V1 layout for a V1 archive
(narrow strings with the size check, two i32 paddings); otherwise the V2
layout gated on big chunk version `major == 1` (wide strings, no
paddings). -/
def revisionHistoryNewDeserialize (st : RState) :
    Except String (RevisionHistoryNew × RState) :=
  if st.version = .V1 then do
    let (createdBy, st1) ← stringWithLengthDeserialize st
    let (createTime, st2) ← timeDeserialize st1
    let (_, st3) ← deserializeI32 st2
    let (lastEditedBy, st4) ← stringWithLengthDeserialize st3
    let (lastEditTime, st5) ← timeDeserialize st4
    let (_, st6) ← deserializeI32 st5
    let (revisionCount, st7) ← deserializeI32 st6
    .ok (.v1 createdBy createTime lastEditedBy lastEditTime revisionCount, st7)
  else do
    let (major, _, st1) ← bigVersionDeserialize st
    if major = 1 then do
      let (createdBy, st2) ← wstringDeserialize st1
      let (createTime, st3) ← timeDeserialize st2
      let (lastEditedBy, st4) ← wstringDeserialize st3
      let (lastEditTime, st5) ← timeDeserialize st4
      let (revisionCount, st6) ← deserializeI32 st5
      .ok (.v2 createdBy createTime lastEditedBy lastEditTime revisionCount, st6)
    else
      .ok (.v2 [] timeDefault [] timeDefault 0, st1)

/-- Embeds `NotesV1` / `NotesV2` of `serializer/src/rhino/notes.rs`. -/
inductive NotesNew where
  | v1 (visible : Int) (windowLeft windowTop windowRight windowBottom : Int)
      (data : List Nat)
  | v2 (htmlEncoded : Bool) (data : List Nat) (visible : Bool)
      (windowLeft windowTop windowRight windowBottom : Int)
deriving DecidableEq, Repr

def notesNewDefault : NotesNew := .v1 0 0 0 0 0 []

/-- Embeds `Notes::deserialize` of `serializer/src/rhino/notes.rs`. -/
def notesNewDeserialize (st : RState) : Except String (NotesNew × RState) :=
  if st.version = .V1 then do
    let (visible, st1) ← deserializeI32 st
    let (windowLeft, st2) ← deserializeI32 st1
    let (windowTop, st3) ← deserializeI32 st2
    let (windowRight, st4) ← deserializeI32 st3
    let (windowBottom, st5) ← deserializeI32 st4
    let (s, st6) ← stringWithLengthDeserialize st5
    .ok (.v1 visible windowLeft windowTop windowRight windowBottom s, st6)
  else do
    let (major, _, st1) ← bigVersionDeserialize st
    if major = 1 then do
      let (htmlEncoded, st2) ← boolFromI32Deserialize st1
      let (s, st3) ← wstringDeserialize st2
      let (visible, st4) ← boolFromI32Deserialize st3
      let (windowLeft, st5) ← deserializeI32 st4
      let (windowTop, st6) ← deserializeI32 st5
      let (windowRight, st7) ← deserializeI32 st6
      let (windowBottom, st8) ← deserializeI32 st7
      .ok (.v2 htmlEncoded s visible windowLeft windowTop windowRight
        windowBottom, st8)
    else
      .ok (.v2 false [] false 0 0 0 0, st1)

/-- Embeds `Application` of `serializer/src/rhino/application.rs`: a bare
`big_chunk_version` (read and not branched on) followed by three wide
strings. -/
structure ApplicationRec where
  name : List Nat
  url : List Nat
  details : List Nat
deriving DecidableEq, Repr

def applicationDefault : ApplicationRec := { name := [], url := [], details := [] }

def applicationDeserialize (st : RState) :
    Except String (ApplicationRec × RState) := do
  let (_, _, st1) ← bigVersionDeserialize st
  let (name, st2) ← wstringDeserialize st1
  let (url, st3) ← wstringDeserialize st2
  let (details, st4) ← wstringDeserialize st3
  .ok ({ name, url, details }, st4)

/-- Modelled from the spec: the on-version (`on_version::Version`) stream
decoder is not under src/ (only the bit-mask conversions are); modelled as
yielding the current chunk header value. -/
def onVersionDeserialize (st : RState) : Except String (Int × RState) :=
  .ok (st.chunkBegin.value, st)

/-- Embeds `Properties` of `serializer/src/rhino/mod.rs` (lines 31-38). -/
structure PropertiesNewRec where
  filename : List Nat
  version : Int
  revisionHistory : RevisionHistoryNew
  notes : NotesNew
  application : ApplicationRec
deriving DecidableEq, Repr

def propertiesNewDefault : PropertiesNewRec :=
  { filename := [], version := 0, revisionHistory := revisionHistoryNewDefault,
    notes := notesNewDefault, application := applicationDefault }

/-- The V2 table loop of `Properties::deserialize` in
`serializer/src/rhino/mod.rs` (lines 75-103): decode a sub-chunk of the
properties chunk, dispatch on its typecode, advance past it and continue;
the preview-image typecodes are `// TODO` (skipped); any other typecode
breaks out of the loop, returning the table decoded so far. -/
def propertiesV2Loop : Nat → PropertiesNewRec → RState →
    Except String PropertiesNewRec
  | 0, _, _ => .error "out of fuel"
  | fuel + 1, props, st => do
    let (b, payload, st1) ← chunkDeserialize st
    if b.typecode = PROPERTIES_OPENNURBS_VERSION then do
      let (v, _) ← onVersionDeserialize (mkSub payload st.version b)
      propertiesV2Loop fuel { props with version := v } (pastChunk st1 b)
    else if b.typecode = PROPERTIES_AS_FILE_NAME then do
      let (s, _) ← wstringDeserialize (mkSub payload st.version b)
      propertiesV2Loop fuel { props with filename := s } (pastChunk st1 b)
    else if b.typecode = PROPERTIES_REVISIONHISTORY then do
      let (rh, _) ← revisionHistoryNewDeserialize (mkSub payload st.version b)
      propertiesV2Loop fuel { props with revisionHistory := rh } (pastChunk st1 b)
    else if b.typecode = PROPERTIES_NOTES then do
      let (n, _) ← notesNewDeserialize (mkSub payload st.version b)
      propertiesV2Loop fuel { props with notes := n } (pastChunk st1 b)
    else if b.typecode = PROPERTIES_APPLICATION then do
      let (a, _) ← applicationDeserialize (mkSub payload st.version b)
      propertiesV2Loop fuel { props with application := a } (pastChunk st1 b)
    else if b.typecode = PROPERTIES_PREVIEWIMAGE ∨
        b.typecode = PROPERTIES_COMPRESSED_PREVIEWIMAGE then
      propertiesV2Loop fuel props (pastChunk st1 b)
    else
      .ok props

/-- The V1 loop of `Properties::deserialize` in
`serializer/src/rhino/mod.rs` (lines 50-71): the comment string is read
and discarded, BITMAPPREVIEW/CURRENTLAYER/LAYER are `// TODO` (skipped),
any other typecode breaks. -/
def propertiesNewV1Loop : Nat → PropertiesNewRec → RState →
    Except String (PropertiesNewRec × RState)
  | 0, _, _ => .error "out of fuel"
  | fuel + 1, props, st => do
    let (b, payload, st1) ← chunkDeserialize st
    if b.typecode = COMMENTBLOCK then
      propertiesNewV1Loop fuel props (pastChunk st1 b)
    else if b.typecode = SUMMARY then do
      let (rh, _) ← revisionHistoryNewDeserialize (mkSub payload st.version b)
      propertiesNewV1Loop fuel { props with revisionHistory := rh }
        (pastChunk st1 b)
    else if b.typecode = NOTES then do
      let (n, _) ← notesNewDeserialize (mkSub payload st.version b)
      propertiesNewV1Loop fuel { props with notes := n } (pastChunk st1 b)
    else if b.typecode = BITMAPPREVIEW ∨ b.typecode = CURRENTLAYER ∨
        b.typecode = LAYER then
      propertiesNewV1Loop fuel props (pastChunk st1 b)
    else
      .ok (props, st1)

/-- Embeds `Properties::deserialize` in `serializer/src/rhino/mod.rs` (lines
46-108): V1 archives seek to offset 32 and run the V1 loop; otherwise an
outer chunk is decoded, the table loop runs inside it only when its
typecode is `PROPERTIES_TABLE`, and the stream is advanced past the outer
chunk. -/
def propertiesNewDeserialize (st : RState) :
    Except String (PropertiesNewRec × RState) :=
  if st.version = .V1 then
    propertiesNewV1Loop (st.data.length + 1) propertiesNewDefault
      { st with pos := 32 }
  else do
    let (b, payload, st1) ← chunkDeserialize st
    let props ←
      if b.typecode = PROPERTIES_TABLE then
        propertiesV2Loop (payload.length + 1) propertiesNewDefault
          (mkSub payload st.version b)
      else
        .ok propertiesNewDefault
    .ok (props, pastChunk st1 b)

/-- The wrapped-table loop template generated by `process_data_struct` in
`derive/src/rhino.rs` (lines 260-280), with the generated `table_field`
match arms abstracted as a dispatch function: a field arm decodes into the
table, `ENDOFTABLE` breaks, and any other typecode falls to the empty
match arm and the loop advances past the sub-chunk and continues. -/
def deriveWrappedTableLoop {α : Type}
    (dispatch : Nat → Option (α → RState → Except String α)) :
    Nat → α → RState → Except String α
  | 0, _, _ => .error "out of fuel"
  | fuel + 1, table, st => do
    let (b, payload, st1) ← chunkDeserialize st
    match dispatch b.typecode with
    | some f => do
      let table2 ← f table (mkSub payload st.version b)
      deriveWrappedTableLoop dispatch fuel table2 (pastChunk st1 b)
    | none =>
      if b.typecode = ENDOFTABLE then
        .ok table
      else
        deriveWrappedTableLoop dispatch fuel table (pastChunk st1 b)

/-- The table loop as the claim describes it (for comparison with
`propertiesV2Loop`): a sub-chunk whose typecode is neither `ENDOFTABLE`
nor in the dispatch map is skipped and iteration continues up to the
terminator. -/
def propertiesV2LoopClaim : Nat → PropertiesNewRec → RState →
    Except String PropertiesNewRec
  | 0, _, _ => .error "out of fuel"
  | fuel + 1, props, st => do
    let (b, payload, st1) ← chunkDeserialize st
    if b.typecode = PROPERTIES_OPENNURBS_VERSION then do
      let (v, _) ← onVersionDeserialize (mkSub payload st.version b)
      propertiesV2LoopClaim fuel { props with version := v } (pastChunk st1 b)
    else if b.typecode = PROPERTIES_AS_FILE_NAME then do
      let (s, _) ← wstringDeserialize (mkSub payload st.version b)
      propertiesV2LoopClaim fuel { props with filename := s } (pastChunk st1 b)
    else if b.typecode = PROPERTIES_REVISIONHISTORY then do
      let (rh, _) ← revisionHistoryNewDeserialize (mkSub payload st.version b)
      propertiesV2LoopClaim fuel { props with revisionHistory := rh }
        (pastChunk st1 b)
    else if b.typecode = PROPERTIES_NOTES then do
      let (n, _) ← notesNewDeserialize (mkSub payload st.version b)
      propertiesV2LoopClaim fuel { props with notes := n } (pastChunk st1 b)
    else if b.typecode = PROPERTIES_APPLICATION then do
      let (a, _) ← applicationDeserialize (mkSub payload st.version b)
      propertiesV2LoopClaim fuel { props with application := a }
        (pastChunk st1 b)
    else if b.typecode = PROPERTIES_PREVIEWIMAGE ∨
        b.typecode = PROPERTIES_COMPRESSED_PREVIEWIMAGE then
      propertiesV2LoopClaim fuel props (pastChunk st1 b)
    else if b.typecode = ENDOFTABLE then
      .ok props
    else
      propertiesV2LoopClaim fuel props (pastChunk st1 b)

/-- Embeds `propertiesNewDeserialize` with the claim-conforming table loop. -/
def propertiesNewDeserializeClaim (st : RState) :
    Except String (PropertiesNewRec × RState) :=
  if st.version = .V1 then
    propertiesNewV1Loop (st.data.length + 1) propertiesNewDefault
      { st with pos := 32 }
  else do
    let (b, payload, st1) ← chunkDeserialize st
    let props ←
      if b.typecode = PROPERTIES_TABLE then
        propertiesV2LoopClaim (payload.length + 1) propertiesNewDefault
          (mkSub payload st.version b)
      else
        .ok propertiesNewDefault
    .ok (props, pastChunk st1 b)

/-! # Theorems -/

/-- C7: `is_leap_year` returns true iff
`year ≥ 1624 ∧ year % 4 = 0 ∧ (year % 400 = 0 ∨ year % 100 ≠ 0)`,
for every `u16` year a `GregorianDate` can hold. -/
theorem isLeapYear_iff (year : Nat) (h16 : year < 2 ^ 16) :
    isLeapYear year = true ↔
      1624 ≤ year ∧ year % 4 = 0 ∧ (year % 400 = 0 ∨ year % 100 ≠ 0) := by
  clear h16
  simp [isLeapYear, and_assoc]

theorem isLeapYear_iff_witness :
    (2000 < 2 ^ 16) ∧
      (isLeapYear 2000 = true ↔
        1624 ≤ 2000 ∧ 2000 % 4 = 0 ∧ (2000 % 400 = 0 ∨ 2000 % 100 ≠ 0)) :=
  ⟨by norm_num, isLeapYear_iff 2000 (by norm_num)⟩

/-- C5 (code bug): on the byte `0x10`, the `ChunkVersion` decoder of
`serializer/rhino/mod.rs` produces `minor = 0x10 | 0x0F = 31`, while the
chunk version contract (`minor = byte & 0x0F`, as implemented by
`chunk::Version` in `serializer/rhino/chunk.rs`) demands `minor = 0`:
the `| 0x0F` in `mod.rs` is a slip for `& 0x0F`. -/
theorem modChunkVersion_bug :
    modChunkVersionDeserialize
        { pos := 0, data := [0x10], version := .V1, chunkBegin := beginDefault }
      = .ok ({ minor := 31, major := 1 },
          { pos := 1, data := [0x10], version := .V1, chunkBegin := beginDefault })
      ∧ chunkVersionMinor 0x10 = 0
      ∧ chunkVersionMajor 0x10 = 1
      ∧ (31 : Nat) ≠ chunkVersionMinor 0x10 := by
  refine ⟨rfl, rfl, rfl, by decide⟩

/-- The condition of `Begin::is_unsigned`, phrased as in the spec. -/
theorem isUnsigned_iff (tc : Nat) :
    isUnsigned tc = true ↔
      (SHORT &&& tc = 0 ∨ tc = RGB ∨ tc = RGBDISPLAY ∨
        tc = PROPERTIES_OPENNURBS_VERSION ∨ tc = OBJECT_RECORD_TYPE) := by
  rw [isUnsigned]
  simp only [Bool.or_eq_true, beq_iff_eq, or_assoc]
  constructor
  · rintro (h | h | h | h | h)
    · exact Or.inl h
    · exact Or.inr <| Or.inl h.symm
    · exact Or.inr <| Or.inr <| Or.inl h.symm
    · exact Or.inr <| Or.inr <| Or.inr <| Or.inl h.symm
    · exact Or.inr <| Or.inr <| Or.inr <| Or.inr h.symm
  · rintro (h | h | h | h | h)
    · exact Or.inl h
    · exact Or.inr <| Or.inl h.symm
    · exact Or.inr <| Or.inr <| Or.inl h.symm
    · exact Or.inr <| Or.inr <| Or.inr <| Or.inl h.symm
    · exact Or.inr <| Or.inr <| Or.inr <| Or.inr h.symm

theorem bind_ok_eq {α β ε : Type} (a : α) (f : α → Except ε β) :
    (bind (Except.ok a) f : Except ε β) = f a := rfl

theorem bind_error_eq {α β ε : Type} (e : ε) (f : α → Except ε β) :
    (bind (Except.error e) f : Except ε β) = Except.error e := rfl

theorem deserializeU8_eq (st : RState) :
    deserializeU8 st =
      if st.pos + 1 ≤ st.data.length then
        .ok (leNat ((st.data.drop st.pos).take 1), { st with pos := st.pos + 1 })
      else .error "failed to fill whole buffer" := by
  rw [deserializeU8, readExact]; split <;> rfl

theorem deserializeU32_eq (st : RState) :
    deserializeU32 st =
      if st.pos + 4 ≤ st.data.length then
        .ok (leNat ((st.data.drop st.pos).take 4), { st with pos := st.pos + 4 })
      else .error "failed to fill whole buffer" := by
  rw [deserializeU32, readExact]; split <;> rfl

theorem deserializeI32_eq (st : RState) :
    deserializeI32 st =
      if st.pos + 4 ≤ st.data.length then
        .ok (toI32 (leNat ((st.data.drop st.pos).take 4)),
          { st with pos := st.pos + 4 })
      else .error "failed to fill whole buffer" := by
  rw [deserializeI32, readExact]; split <;> rfl

theorem deserializeI64_eq (st : RState) :
    deserializeI64 st =
      if st.pos + 8 ≤ st.data.length then
        .ok (toI64 (leNat ((st.data.drop st.pos).take 8)),
          { st with pos := st.pos + 8 })
      else .error "failed to fill whole buffer" := by
  rw [deserializeI64, readExact]; split <;> rfl

/-- C1: a successfully decoded chunk header consists of a little-endian
u32 typecode followed by a length field that is 8 bytes wide (read as
`i64`) for archive versions V50/V60/V70 and 4 bytes wide for V1..V4; in
the 4-byte case the field is read as unsigned (`u32` widened to `i64`)
iff `(typecode & SHORT) = 0` or the typecode is one of RGB, RGBDISPLAY,
PROPERTIES_OPENNURBS_VERSION, OBJECT_RECORD_TYPE, and as signed (`i32`
widened to `i64`) otherwise. -/
theorem beginDeserialize_spec (st : RState) (b : ChunkBegin) (st2 : RState)
    (h : beginDeserialize st = .ok (b, st2)) :
    b.typecode = leNat ((st.data.drop st.pos).take 4) ∧
    ((st.version = .V50 ∨ st.version = .V60 ∨ st.version = .V70) →
      st2.pos = st.pos + 4 + 8 ∧
      b.value = toI64 (leNat ((st.data.drop (st.pos + 4)).take 8))) ∧
    ((st.version = .V1 ∨ st.version = .V2 ∨ st.version = .V3 ∨ st.version = .V4) →
      st2.pos = st.pos + 4 + 4 ∧
      ((SHORT &&& b.typecode = 0 ∨ b.typecode = RGB ∨ b.typecode = RGBDISPLAY ∨
          b.typecode = PROPERTIES_OPENNURBS_VERSION ∨
          b.typecode = OBJECT_RECORD_TYPE) →
        b.value = (leNat ((st.data.drop (st.pos + 4)).take 4) : Int)) ∧
      (¬ (SHORT &&& b.typecode = 0 ∨ b.typecode = RGB ∨ b.typecode = RGBDISPLAY ∨
          b.typecode = PROPERTIES_OPENNURBS_VERSION ∨
          b.typecode = OBJECT_RECORD_TYPE) →
        b.value = toI32 (leNat ((st.data.drop (st.pos + 4)).take 4)))) := by
  rw [beginDeserialize, deserializeU32_eq] at h
  by_cases h4 : st.pos + 4 ≤ st.data.length
  swap
  · rw [if_neg h4, bind_error_eq] at h
    exact Except.noConfusion h
  rw [if_pos h4, bind_ok_eq] at h
  cases hv : st.version <;>
    simp only [hv, sizeOfLength, Nat.reduceEqDiff, reduceCtorEq, reduceIte,
      beq_iff_eq, show ({ st with pos := st.pos + 4 } : RState).version = st.version
        from rfl] at h
  all_goals
    first
    | -- 4-byte length field (V1..V4)
      (split at h
       · rename_i hu
         rw [deserializeU32_eq] at h
         split at h
         · simp only [bind_ok_eq, Except.ok.injEq, Prod.mk.injEq] at h
           obtain ⟨hb, hst⟩ := h
           subst hb; subst hst
           exact ⟨rfl, by simp, fun _ =>
             ⟨rfl, fun _ => rfl, fun hc => absurd ((isUnsigned_iff _).mp hu) hc⟩⟩
         · rw [bind_error_eq] at h
           exact Except.noConfusion h
       · rename_i hu
         rw [deserializeI32_eq] at h
         split at h
         · simp only [bind_ok_eq, Except.ok.injEq, Prod.mk.injEq] at h
           obtain ⟨hb, hst⟩ := h
           subst hb; subst hst
           exact ⟨rfl, by simp, fun _ =>
             ⟨rfl, fun hc => absurd ((isUnsigned_iff _).mpr hc) hu, fun _ => rfl⟩⟩
         · rw [bind_error_eq] at h
           exact Except.noConfusion h)
    | -- 8-byte length field (V50..V70)
      (rw [deserializeI64_eq] at h
       split at h
       · simp only [bind_ok_eq, Except.ok.injEq, Prod.mk.injEq] at h
         obtain ⟨hb, hst⟩ := h
         subst hb; subst hst
         exact ⟨rfl, fun _ => ⟨rfl, rfl⟩, by simp⟩
       · rw [bind_error_eq] at h
         exact Except.noConfusion h)

theorem beginDeserialize_spec_witness :
    ({ typecode := 5, value := 1, initialPosition := 8 } : ChunkBegin).typecode =
      leNat ((([5, 0, 0, 0, 1, 0, 0, 0] : List Nat).drop 0).take 4) :=
  (beginDeserialize_spec
    { pos := 0, data := [5, 0, 0, 0, 1, 0, 0, 0], version := .V1,
      chunkBegin := beginDefault }
    { typecode := 5, value := 1, initialPosition := 8 }
    { pos := 8, data := [5, 0, 0, 0, 1, 0, 0, 0], version := .V1,
      chunkBegin := { typecode := 5, value := 1, initialPosition := 8 } }
    rfl).1

/-- C9: `StringWithChunkValue` fails with the "Negative length" error
whenever the decoded chunk value is `≤ 0` (in particular when it is
exactly `0`), and `Comment` — which decodes its payload through
`StringWithChunkValue` after matching the `COMMENTBLOCK` typecode —
fails the same way. -/
theorem stringWithChunkValue_nonpositive (st st1 : RState) (v : Int)
    (h : valueDeserialize st = .ok (v, st1)) (hv : v ≤ 0) :
    stringWithChunkValueDeserialize st = .error "Negative length" ∧
      (∀ st0 : RState, deserializeU32 st0 = .ok (COMMENTBLOCK, st) →
        commentDeserialize st0 = .error "Negative length") := by
  have h1 : stringWithChunkValueDeserialize st = .error "Negative length" := by
    rw [stringWithChunkValueDeserialize, h, bind_ok_eq]
    exact if_neg (not_lt.mpr hv)
  refine ⟨h1, fun st0 h0 => ?_⟩
  rw [commentDeserialize, h0, bind_ok_eq]
  dsimp only
  rw [if_pos rfl]
  exact h1

theorem stringWithChunkValue_nonpositive_witness :
    stringWithChunkValueDeserialize
        { pos := 0, data := [0, 0, 0, 0], version := .V1, chunkBegin := beginDefault }
      = .error "Negative length" :=
  (stringWithChunkValue_nonpositive
    { pos := 0, data := [0, 0, 0, 0], version := .V1, chunkBegin := beginDefault }
    { pos := 4, data := [0, 0, 0, 0], version := .V1, chunkBegin := beginDefault }
    0 rfl (by norm_num)).1

/-- C2 (counterexample): on the sub-stream with `offset = 1`, `length = 9`
the seek `SeekFrom::Start(100)` succeeds, returns the position `100`,
which lies outside `[0, length] = [0, 9]`, and moves the parent to `101`,
outside `[offset, offset + length] = [1, 10]`: the sub-stream enforces no
upper bound on seeks. -/
theorem chunkSeek_beyond_end :
    chunkSeek { offset := 1, length := 9 } 0 (.fromStart 100) = (.ok 100, 101) ∧
      9 < 100 ∧ 1 + 9 < 101 :=
  ⟨rfl, by norm_num, by norm_num⟩

theorem chunkSeek_eq_some (c : SubChunk) (parentPos : Nat) (mode : SeekMode)
    (value : Nat) (hfp : seekFinalPosition c parentPos mode = some value) :
    chunkSeek c parentPos mode =
      if startPosition c ≤ value then (.ok (value - startPosition c), value)
      else (.error .outOfBounds, parentPos) := by
  rw [chunkSeek, hfp]

theorem chunkSeek_eq_none (c : SubChunk) (parentPos : Nat) (mode : SeekMode)
    (hfp : seekFinalPosition c parentPos mode = none) :
    chunkSeek c parentPos mode = (.error .invalidInput, parentPos) := by
  rw [chunkSeek, hfp]

/-- C2 (amended): every seek on a sub-stream that succeeds with relative
position `p` puts the parent exactly at `offset + p` — in particular never
below `offset` — and every read that starts with the parent inside
`[offset, offset + length)` reads at most `length` bytes and leaves the
parent inside `[offset, offset + length]`; the upper bound `p ≤ length`
is, however, not enforced for seeks. -/
theorem chunk_sub_stream_bounds (c : SubChunk) (parentPos : Nat) :
    (∀ m p q, chunkSeek c parentPos m = (.ok p, q) →
      q = c.offset + p ∧ c.offset ≤ q) ∧
    (∀ dataLen bufLen r q, c.offset ≤ parentPos →
      parentPos < c.offset + c.length → parentPos < 2 ^ 64 →
      chunkRead c dataLen parentPos bufLen = .ok (r, q) →
      r ≤ c.length ∧ parentPos ≤ q ∧ q ≤ c.offset + c.length) := by
  constructor
  · intro m p q hs
    cases hfp : seekFinalPosition c parentPos m with
    | none =>
      rw [chunkSeek_eq_none c parentPos m hfp] at hs
      simp only [Prod.mk.injEq] at hs
      exact Except.noConfusion hs.1
    | some value =>
      rw [chunkSeek_eq_some c parentPos m value hfp] at hs
      split at hs
      · rename_i hle
        simp only [Prod.mk.injEq, Except.ok.injEq] at hs
        obtain ⟨hp, hq⟩ := hs
        subst hp; subst hq
        have hle2 : c.offset ≤ value := hle
        show value = c.offset + (value - c.offset) ∧ c.offset ≤ value
        omega
      · simp only [Prod.mk.injEq] at hs
        exact Except.noConfusion hs.1
  · intro dataLen bufLen r q h1 h2 h64 hr
    have h64c : parentPos < 18446744073709551616 := by omega
    have hfp : seekFinalPosition c parentPos (.fromCurrent 0) = some parentPos := by
      simp [seekFinalPosition, checkedAdd, h64c]
    have hseek : chunkSeek c parentPos (.fromCurrent 0)
        = (.ok (parentPos - c.offset), parentPos) := by
      rw [chunkSeek_eq_some c parentPos (.fromCurrent 0) parentPos hfp]
      rw [if_pos (show startPosition c ≤ parentPos from h1)]
      rfl
    have hrem : remainderLength c parentPos
        = .ok (if parentPos - c.offset < endPosition c then
            c.length - (parentPos - c.offset) else 0) := by
      rw [remainderLength, hseek]
    rw [chunkRead, hrem] at hr
    simp only [Except.ok.injEq, Prod.mk.injEq] at hr
    obtain ⟨hrr, hq⟩ := hr
    have hrle : r ≤ if parentPos - c.offset < endPosition c then
        c.length - (parentPos - c.offset) else 0 := by
      rw [← hrr]
      exact le_trans (Nat.min_le_left _ _) (Nat.min_le_left _ _)
    rw [hrr] at hq
    rw [endPosition] at hrle
    split at hrle <;> omega

theorem chunk_sub_stream_bounds_witness :
    ((4 : Nat) = 1 + 3 ∧ (1 : Nat) ≤ 4) ∧
      ((9 : Nat) ≤ 9 ∧ (1 : Nat) ≤ 10 ∧ (10 : Nat) ≤ 1 + 9) :=
  ⟨(chunk_sub_stream_bounds { offset := 1, length := 9 } 1).1
      (.fromStart 3) 3 4 rfl,
    (chunk_sub_stream_bounds { offset := 1, length := 9 } 1).2
      11 10 9 10 (by norm_num) (by norm_num) (by norm_num) rfl⟩

/-- C8: a sub-stream seek that fails (OutOfBounds because the target is
before the chunk start, or InvalidInput because the position arithmetic
overflows) leaves the parent stream position unchanged: the error paths
perform no seek on the parent. -/
theorem chunkSeek_error_keeps_parent (c : SubChunk) (parentPos : Nat)
    (m : SeekMode) (e : ChunkError)
    (h : (chunkSeek c parentPos m).1 = .error e) :
    (chunkSeek c parentPos m).2 = parentPos := by
  cases hfp : seekFinalPosition c parentPos m with
  | none => rw [chunkSeek_eq_none c parentPos m hfp]
  | some value =>
    rw [chunkSeek_eq_some c parentPos m value hfp] at h ⊢
    split at h
    · exact Except.noConfusion h
    · rename_i hle
      rw [if_neg hle]

theorem chunkSeek_error_keeps_parent_witness :
    (chunkSeek { offset := 1, length := 9 } 5 (.fromCurrent (-100))).2 = 5 :=
  chunkSeek_error_keeps_parent { offset := 1, length := 9 } 5
    (.fromCurrent (-100)) .invalidInput rfl

theorem foldl_digitStep_none (bs : List Nat) :
    bs.foldl digitStep none = none := by
  induction bs with
  | nil => rfl
  | cons b bs ih => simpa [digitStep] using ih

theorem versionTryFromU8_eq_some (b : Nat) (v : FileVersion)
    (h : versionTryFromU8 b = some v) : b = versionToU8 v := by
  unfold versionTryFromU8 at h
  split_ifs at h with h1 h2 h3 h4 h5 h6 h7 <;>
    first
      | (obtain rfl := Option.some.inj h; simp [versionToU8, *])
      | exact Option.noConfusion h

theorem versionTryFromU8_mem (b : Nat)
    (hb : b = 1 ∨ b = 2 ∨ b = 3 ∨ b = 4 ∨ b = 50 ∨ b = 60 ∨ b = 70) :
    ∃ v, versionTryFromU8 b = some v := by
  rcases hb with rfl | rfl | rfl | rfl | rfl | rfl | rfl <;>
    exact ⟨_, rfl⟩

/-- C6: decoding an 8-byte file-version block skips leading spaces and
folds the remaining bytes as decimal digits into a byte; the decode
succeeds exactly when that fold consumes only digits and yields a byte in
{1, 2, 3, 4, 50, 60, 70}; on success the resulting `ArchiveVersion`
corresponds to that byte and the context's version is updated to it; a
non-digit after the leading spaces makes the fold fail, producing the
invalid-version error. -/
theorem fileVersion_spec (st : RState) (buf : List Nat) (st1 : RState)
    (h8 : readExact 8 st = .ok (buf, st1)) :
    (∀ v st2, fileVersionDeserialize st = .ok (v, st2) →
      parseDigits (buf.dropWhile (fun x => x == 32)) = some (versionToU8 v) ∧
        st2 = { st1 with version := v }) ∧
    ((∃ v st2, fileVersionDeserialize st = .ok (v, st2)) ↔
      (∃ b, parseDigits (buf.dropWhile (fun x => x == 32)) = some b ∧
        (b = 1 ∨ b = 2 ∨ b = 3 ∨ b = 4 ∨ b = 50 ∨ b = 60 ∨ b = 70))) ∧
    (parseDigits (buf.dropWhile (fun x => x == 32)) = none →
      fileVersionDeserialize st = .error "3dm file error: unable to read file version") := by
  have heq : fileVersionDeserialize st =
      match parseDigits (buf.dropWhile (fun x => x == 32)) with
      | none => .error "3dm file error: unable to read file version"
      | some v => versionFromByte v st1 := by
    rw [fileVersionDeserialize, h8]
  refine ⟨?_, ?_, ?_⟩
  · intro v st2 hok
    cases hp : parseDigits (buf.dropWhile (fun x => x == 32)) with
    | none =>
      rw [hp] at heq
      rw [heq] at hok
      exact Except.noConfusion hok
    | some b =>
      rw [hp] at heq
      have heq2 : fileVersionDeserialize st = versionFromByte b st1 := heq
      rw [versionFromByte] at heq2
      cases hb : versionTryFromU8 b with
      | none =>
        rw [hb] at heq2
        rw [heq2] at hok
        exact Except.noConfusion hok
      | some v2 =>
        rw [hb] at heq2
        rw [heq2] at hok
        simp only [Except.ok.injEq, Prod.mk.injEq] at hok
        obtain ⟨rfl, rfl⟩ := hok
        exact ⟨by rw [← versionTryFromU8_eq_some b _ hb], rfl⟩
  · constructor
    · rintro ⟨v, st2, hok⟩
      cases hp : parseDigits (buf.dropWhile (fun x => x == 32)) with
      | none =>
        rw [hp] at heq
        rw [heq] at hok
        exact Except.noConfusion hok
      | some b =>
        rw [hp] at heq
        have heq2 : fileVersionDeserialize st = versionFromByte b st1 := heq
        rw [versionFromByte] at heq2
        cases hb : versionTryFromU8 b with
        | none =>
          rw [hb] at heq2
          rw [heq2] at hok
          exact Except.noConfusion hok
        | some v2 =>
          refine ⟨b, rfl, ?_⟩
          rw [versionTryFromU8_eq_some b v2 hb]
          cases v2 <;> simp [versionToU8]
    · rintro ⟨b, hp, hb⟩
      rw [hp] at heq
      have heq2 : fileVersionDeserialize st = versionFromByte b st1 := heq
      rw [versionFromByte] at heq2
      obtain ⟨v, hv⟩ := versionTryFromU8_mem b hb
      rw [hv] at heq2
      exact ⟨v, _, heq2⟩
  · intro hp
    rw [hp] at heq
    exact heq

theorem fileVersion_spec_witness :
    parseDigits ((([32, 32, 32, 32, 32, 32, 32, 49] : List Nat)).dropWhile
        (fun x => x == 32)) = some (versionToU8 .V1) ∧
      ({ pos := 8, data := [32, 32, 32, 32, 32, 32, 32, 49], version := .V1,
          chunkBegin := beginDefault } : RState)
        = { pos := 8, data := [32, 32, 32, 32, 32, 32, 32, 49],
            version := FileVersion.V1, chunkBegin := beginDefault } :=
  (fileVersion_spec
    { pos := 0, data := [32, 32, 32, 32, 32, 32, 32, 49], version := .V2,
      chunkBegin := beginDefault }
    [32, 32, 32, 32, 32, 32, 32, 49]
    { pos := 8, data := [32, 32, 32, 32, 32, 32, 32, 49], version := .V2,
      chunkBegin := beginDefault }
    rfl).1 .V1
    { pos := 8, data := [32, 32, 32, 32, 32, 32, 32, 49], version := .V1,
      chunkBegin := beginDefault }
    rfl

/-- C10: when the archive version is V1, `Properties::deserialize`
unconditionally repositions the byte source to absolute offset 32 before
iterating the property chunks, so its result does not depend on the
stream position it was given. -/
theorem propertiesV1_seeks_32 (st : RState) (p : Nat) (h : st.version = .V1) :
    modPropertiesDeserialize st =
      propertiesV1Loop (st.data.length + 1) propertiesDefault
        { st with pos := 32 } ∧
    modPropertiesDeserialize { st with pos := p } = modPropertiesDeserialize st := by
  constructor
  · rw [modPropertiesDeserialize, if_pos h]
  · rw [modPropertiesDeserialize, modPropertiesDeserialize]
    rw [if_pos (show ({ st with pos := p } : RState).version = .V1 from h),
      if_pos h]

theorem propertiesV1_seeks_32_witness :
    modPropertiesDeserialize
        { pos := 99, data := [], version := .V1, chunkBegin := beginDefault }
      = modPropertiesDeserialize
        { pos := 7, data := [], version := .V1, chunkBegin := beginDefault } :=
  (propertiesV1_seeks_32
    { pos := 7, data := [], version := .V1, chunkBegin := beginDefault }
    99 rfl).2

/-- C3 (amended): a sub-chunk typecode outside the dispatch map never
produces an error.  In the derive-generated wrapped-table loop
(`derive/src/rhino.rs`) such a sub-chunk is skipped and iteration
continues up to the `ENDOFTABLE` terminator; in the hand-written
Properties V2 loop (`serializer/src/rhino/mod.rs`), iteration instead
stops at the first such typecode, returning `Ok` with the table decoded
so far. -/
theorem tableLoop_unknown_typecode :
    (∀ (fuel : Nat) (props : PropertiesNewRec) (st st1 : RState)
        (b : ChunkBegin) (payload : List Nat),
      chunkDeserialize st = .ok (b, payload, st1) →
      b.typecode ≠ PROPERTIES_OPENNURBS_VERSION →
      b.typecode ≠ PROPERTIES_AS_FILE_NAME →
      b.typecode ≠ PROPERTIES_REVISIONHISTORY →
      b.typecode ≠ PROPERTIES_NOTES →
      b.typecode ≠ PROPERTIES_APPLICATION →
      b.typecode ≠ PROPERTIES_PREVIEWIMAGE →
      b.typecode ≠ PROPERTIES_COMPRESSED_PREVIEWIMAGE →
      propertiesV2Loop (fuel + 1) props st = .ok props) ∧
    (∀ (α : Type) (dispatch : Nat → Option (α → RState → Except String α))
        (fuel : Nat) (table : α) (st st1 : RState) (b : ChunkBegin)
        (payload : List Nat),
      chunkDeserialize st = .ok (b, payload, st1) →
      dispatch b.typecode = none →
      b.typecode ≠ ENDOFTABLE →
      deriveWrappedTableLoop dispatch (fuel + 1) table st =
        deriveWrappedTableLoop dispatch fuel table (pastChunk st1 b)) := by
  constructor
  · intro fuel props st st1 b payload hc h1 h2 h3 h4 h5 h6 h7
    simp only [propertiesV2Loop, hc, bind_ok_eq]
    rw [if_neg h1, if_neg h2, if_neg h3, if_neg h4, if_neg h5,
      if_neg (by rintro (h | h) <;> [exact h6 h; exact h7 h])]
  · intro α dispatch fuel table st st1 b payload hc hd hend
    conv_lhs => rw [deriveWrappedTableLoop]
    simp only [hc, bind_ok_eq, hd]
    rw [if_neg hend]

/-- C3 (counterexample): the hand-written Properties V2 table loop does
not continue iterating past an unknown typecode.  On an input whose
properties table holds an unknown chunk, then a `PROPERTIES_AS_FILE_NAME`
chunk decoding to the string "A", then `ENDOFTABLE`, the code leaves the
filename at its default while the behavior described by the claim (skip
the unknown chunk and continue to the terminator) would decode it. -/
theorem tableLoop_unknown_cex :
    (propertiesNewDeserialize
        { pos := 0,
          data := [12, 0, 0, 0, 34, 0, 0, 0,
                   231, 3, 0, 0, 1, 0, 0, 0, 0,
                   13, 0, 0, 0, 8, 0, 0, 0, 2, 0, 0, 0, 65, 0, 0, 0,
                   11, 0, 0, 0, 1, 0, 0, 0, 0],
          version := .V2, chunkBegin := beginDefault }).map
        (fun r => r.1.filename) = .ok [] ∧
    (propertiesNewDeserializeClaim
        { pos := 0,
          data := [12, 0, 0, 0, 34, 0, 0, 0,
                   231, 3, 0, 0, 1, 0, 0, 0, 0,
                   13, 0, 0, 0, 8, 0, 0, 0, 2, 0, 0, 0, 65, 0, 0, 0,
                   11, 0, 0, 0, 1, 0, 0, 0, 0],
          version := .V2, chunkBegin := beginDefault }).map
        (fun r => r.1.filename) = .ok [65] ∧
    ([] : List Nat) ≠ [65] :=
  ⟨rfl, rfl, by decide⟩

theorem tableLoop_unknown_typecode_witness :
    propertiesV2Loop 1 propertiesNewDefault
        { pos := 0, data := [231, 3, 0, 0, 1, 0, 0, 0, 0], version := .V2,
          chunkBegin := beginDefault }
      = .ok propertiesNewDefault ∧
    deriveWrappedTableLoop (α := Nat) (fun _ => none) 1 0
        { pos := 0, data := [231, 3, 0, 0, 1, 0, 0, 0, 0], version := .V2,
          chunkBegin := beginDefault }
      = deriveWrappedTableLoop (fun _ => none) 0 0
          (pastChunk
            { pos := 8, data := [231, 3, 0, 0, 1, 0, 0, 0, 0], version := .V2,
              chunkBegin := { typecode := 999, value := 1, initialPosition := 8 } }
            { typecode := 999, value := 1, initialPosition := 8 }) :=
  ⟨tableLoop_unknown_typecode.1 0 propertiesNewDefault
      { pos := 0, data := [231, 3, 0, 0, 1, 0, 0, 0, 0], version := .V2,
        chunkBegin := beginDefault }
      { pos := 8, data := [231, 3, 0, 0, 1, 0, 0, 0, 0], version := .V2,
        chunkBegin := { typecode := 999, value := 1, initialPosition := 8 } }
      { typecode := 999, value := 1, initialPosition := 8 }
      [0] rfl (by decide) (by decide) (by decide) (by decide) (by decide)
      (by decide) (by decide),
    tableLoop_unknown_typecode.2 Nat (fun _ => none) 0 0
      { pos := 0, data := [231, 3, 0, 0, 1, 0, 0, 0, 0], version := .V2,
        chunkBegin := beginDefault }
      { pos := 8, data := [231, 3, 0, 0, 1, 0, 0, 0, 0], version := .V2,
        chunkBegin := { typecode := 999, value := 1, initialPosition := 8 } }
      { typecode := 999, value := 1, initialPosition := 8 }
      [0] rfl rfl (by decide)⟩

/-- C4 (amended): when the outer chunk's typecode does not equal the
declared table typecode, the wrapped-table deserializer returns the
default record (not an error), after advancing the stream past the outer
chunk. -/
theorem propertiesV2_outer_mismatch (st st1 : RState) (b : ChunkBegin)
    (payload : List Nat)
    (hv : st.version ≠ .V1)
    (hc : chunkDeserialize st = .ok (b, payload, st1))
    (ht : b.typecode ≠ PROPERTIES_TABLE) :
    propertiesNewDeserialize st = .ok (propertiesNewDefault, pastChunk st1 b) := by
  rw [propertiesNewDeserialize, if_neg hv]
  simp only [hc, bind_ok_eq]
  rw [if_neg ht]

/-- C4 (counterexample): a V2 properties record whose outer chunk has
typecode 0 (not `PROPERTIES_TABLE`) deserializes to `Ok` with the default
record value — not to an error. -/
theorem propertiesV2_outer_mismatch_cex :
    propertiesNewDeserialize
        { pos := 0, data := [0, 0, 0, 0, 1, 0, 0, 0, 170], version := .V2,
          chunkBegin := beginDefault }
      = .ok (propertiesNewDefault,
          { pos := 9, data := [0, 0, 0, 0, 1, 0, 0, 0, 170], version := .V2,
            chunkBegin := { typecode := 0, value := 1, initialPosition := 8 } }) := by
  rfl

theorem propertiesV2_outer_mismatch_witness :
    propertiesNewDeserialize
        { pos := 0, data := [0, 0, 0, 0, 1, 0, 0, 0, 170], version := .V2,
          chunkBegin := beginDefault }
      = .ok (propertiesNewDefault,
          pastChunk
            { pos := 8, data := [0, 0, 0, 0, 1, 0, 0, 0, 170], version := .V2,
              chunkBegin := { typecode := 0, value := 1, initialPosition := 8 } }
            { typecode := 0, value := 1, initialPosition := 8 }) :=
  propertiesV2_outer_mismatch
    { pos := 0, data := [0, 0, 0, 0, 1, 0, 0, 0, 170], version := .V2,
      chunkBegin := beginDefault }
    { pos := 8, data := [0, 0, 0, 0, 1, 0, 0, 0, 170], version := .V2,
      chunkBegin := { typecode := 0, value := 1, initialPosition := 8 } }
    { typecode := 0, value := 1, initialPosition := 8 }
    [170] (by decide) rfl (by decide)

end Geometria